import Mathlib

/-!
Shallow embedding of `src/exotic.py`: the `ExoticFunction` wrapper class,
the `exotic` builder, and the `unpack` / `apply` combinators.

Python values are modelled by the inductive `Val`: base data (`none`, `int`,
`str`, `list`), opaque user functions (`prim n`, whose behaviour is given by
a semantics parameter `σ : Sem`), and the closures the library itself creates:
the keyword-only thunk of `__rshift__`, `functools.partial` objects, and
`ExoticFunction` instances.  Calling a value is the structurally recursive
interpreter `call`; it threads an event log recording each invocation of an
opaque user function, so that "f is invoked exactly once" is expressible.
A failed call returns `Except.error` carrying the Python exception kind.
-/

namespace Exotic

/-- Kinds of Python exceptions the embedded code can raise. -/
inductive PyErr where
  | typeError
  | indexError
  | userError : Nat → PyErr
  deriving DecidableEq

/-- Python runtime values reachable in this library. -/
inductive Val where
  /-- Python `None`. -/
  | none
  | int : Int → Val
  | str : String → Val
  | list : List Val → Val
  /-- An opaque user function, interpreted by the semantics parameter `σ`. -/
  | prim : Nat → Val
  /-- `lambda *, __x=arg: __x` from `ExoticFunction.__rshift__` (line 90),
  carrying the captured value `arg` (the default of the keyword-only
  parameter, fixed at lambda creation). -/
  | thunk : Val → Val
  /-- `functools.partial(f, *bound)`. -/
  | partialApp : Val → List Val → Val
  /-- An `ExoticFunction(func, _composed)` instance (lines 71-74). -/
  | exoticF : Val → Val → Val
  /-- The default post-transform `lambda x: x` (line 71). -/
  | idFun

/-- Keyword arguments of a Python call, in call order. -/
abbrev Kw := List (String × Val)

/-- One invocation of an opaque user function `prim tag` with its arguments. -/
structure Event where
  tag : Nat
  args : List Val
  kw : Kw

/-- Semantics of the opaque user functions: what `prim n` returns on given
positional and keyword arguments (or which exception it raises). -/
abbrev Sem := Nat → List Val → Kw → Except PyErr Val

/-- The keyword-only parameter of the `__rshift__` lambda.  It is written
`__x` in the class body, so CPython name-mangles it to `_ExoticFunction__x`. -/
def thunkKey : String := "_ExoticFunction__x"

/-- Call semantics of `lambda *, __x=a: __x` (line 90): positional arguments
are rejected; with no arguments it returns the captured default `a`; the
(mangled) keyword `__x` overrides the default; any other keyword is an
unexpected-keyword `TypeError`. -/
def thunkSem (a : Val) (args : List Val) (kw : Kw) : Except PyErr Val :=
  match args with
  | _ :: _ => .error .typeError
  | [] =>
    match kw with
    | [] => .ok a
    | [(k, v)] => if k = thunkKey then .ok v else .error .typeError
    | _ => .error .typeError

/-- Call semantics of the default post-transform `lambda x: x` (line 71):
exactly one positional argument, or the keyword `x`. -/
def idSem (args : List Val) (kw : Kw) : Except PyErr Val :=
  match args, kw with
  | [x], [] => .ok x
  | [], [(k, v)] => if k = "x" then .ok v else .error .typeError
  | _, _ => .error .typeError

/-- Which values Python's `callable` accepts here (used by
`functools.partial`, which raises `TypeError` on a non-callable function). -/
def isCallable : Val → Bool
  | .prim _ | .thunk _ | .partialApp _ _ | .exoticF _ _ | .idFun => true
  | _ => false

/-- The interpreter: `call σ f args kw log` is Python `f(*args, **kw)`.
`ExoticFunction.__call__` (lines 76-78) is
`self._composed(self.func(*args, **kwargs))`; `functools.partial` prepends
its bound arguments; calling a non-callable raises `TypeError`.  Each
successful invocation of an opaque `prim` appends one `Event` to the log. -/
def call (σ : Sem) : Val → List Val → Kw → List Event → Except PyErr (Val × List Event)
  | .prim n, args, kw, log =>
    match σ n args kw with
    | .ok v => .ok (v, log ++ [⟨n, args, kw⟩])
    | .error e => .error e
  | .thunk a, args, kw, log =>
    match thunkSem a args kw with
    | .ok v => .ok (v, log)
    | .error e => .error e
  | .idFun, args, kw, log =>
    match idSem args kw with
    | .ok v => .ok (v, log)
    | .error e => .error e
  | .partialApp g bound, args, kw, log => call σ g (bound ++ args) kw log
  | .exoticF f c, args, kw, log =>
    match call σ f args kw log with
    | .ok (r, log') => call σ c [r] [] log'
    | .error e => .error e
  | .none, _, _, _ => .error .typeError
  | .int _, _, _, _ => .error .typeError
  | .str _, _, _, _ => .error .typeError
  | .list _, _, _, _ => .error .typeError

/-- The `ExoticFunction` class, seen as its two attributes (lines 71-74). -/
structure ExoticFunction where
  func : Val
  _composed : Val

/-- The runtime value an `ExoticFunction` instance denotes. -/
def ExoticFunction.toVal (e : ExoticFunction) : Val := .exoticF e.func e._composed

/-- `__matmul__` (lines 80-82): `ExoticFunction(func, self)`. -/
def ExoticFunction.matmul (e : ExoticFunction) (func : Val) : ExoticFunction :=
  ⟨func, e.toVal⟩

/-- `__mul__` (lines 84-86): `ExoticFunction(partial(self.func, arg), self._composed)`. -/
def ExoticFunction.mul (e : ExoticFunction) (arg : Val) : ExoticFunction :=
  ⟨.partialApp e.func [arg], e._composed⟩

/-- `__rshift__` (lines 88-90): `self.__mul__(lambda *, __x=arg: __x)`. -/
def ExoticFunction.rshift (e : ExoticFunction) (arg : Val) : ExoticFunction :=
  e.mul (.thunk arg)

/-- `__lshift__` (lines 92-94): `self.__mul__(arg)`. -/
def ExoticFunction.lshift (e : ExoticFunction) (arg : Val) : ExoticFunction :=
  e.mul arg

/-- `__or__` (lines 96-100): `modifier(func=self)`. -/
def ExoticFunction.orPipe (σ : Sem) (e : ExoticFunction) (modifier : Val)
    (log : List Event) : Except PyErr (Val × List Event) :=
  call σ modifier [] [("func", e.toVal)] log

/-- `_ExoticBuilder` (lines 103-108). -/
structure ExoticBuilder where
  builder : Val → ExoticFunction

/-- `_ExoticBuilder.__mod__` (lines 107-108): `self.builder(func)`. -/
def ExoticBuilder.mod (b : ExoticBuilder) (func : Val) : ExoticFunction :=
  b.builder func

/-- `exotic` (lines 111-114): the builder whose `builder` constructs
`ExoticFunction(func)` with the default post-transform. -/
def exotic : ExoticBuilder := ⟨fun func => ⟨func, .idFun⟩⟩

/-- `exotic % f`. -/
def exoticMod (func : Val) : ExoticFunction := exotic.mod func

/-- Iterability for `*`-unpacking: lists yield their elements, strings their
characters; other base values are not iterable. -/
def asIterable : Val → Option (List Val)
  | .list l => some l
  | .str s => some (s.data.map fun ch => .str (String.mk [ch]))
  | _ => Option.none

/-- Raw `unpack` (lines 116-119): `ExoticFunction(partial(func, *arg()))`.
Evaluation order: `arg()` is called first; its result is `*`-unpacked
(`TypeError` if not iterable); then `functools.partial` requires `func` to
be callable (`TypeError` otherwise, in particular for the default `None`). -/
def unpack (σ : Sem) (arg func : Val) (log : List Event) :
    Except PyErr (Val × List Event) :=
  match call σ arg [] [] log with
  | .error e => .error e
  | .ok (s, log') =>
    match asIterable s with
    | Option.none => .error .typeError
    | some elems =>
      if isCallable func then
        .ok (Val.exoticF (Val.partialApp func elems) Val.idFun, log')
      else .error .typeError

/-- Raw `apply` (lines 121-128): if `func is None`, the first positional
argument (`args[0]`, `IndexError` when there is none) is called on the rest;
otherwise `func` is called on all positional arguments.  In both branches
only positional arguments are spread. -/
def apply (σ : Sem) (args : List Val) (func : Val) (log : List Event) :
    Except PyErr (Val × List Event) :=
  match func with
  | .none =>
    match args with
    | [] => .error .indexError
    | a :: rest => call σ a rest [] log
  | f => call σ f args [] log

/-! Concrete opaque-function semantics used to exercise the theorems:
tags 0, 1, 2 are unary functions with pure behaviour `Fw`, `Gw`, `Hw`;
tag 3 is a print-like function accepting any arguments and returning `None`;
tag 4 is a zero-argument producer returning the list `[1, 2, 3]`. -/

def Fw (v : Val) : Val := Val.list [Val.int 0, v]

def Gw (v : Val) : Val := Val.list [Val.int 1, v]

def Hw (v : Val) : Val := Val.list [Val.int 2, v]

def σw : Sem := fun n args _ =>
  match n, args with
  | 0, [v] => .ok (Fw v)
  | 1, [v] => .ok (Gw v)
  | 2, [v] => .ok (Hw v)
  | 3, _ => .ok Val.none
  | 4, [] => .ok (Val.list [Val.int 1, Val.int 2, Val.int 3])
  | _, _ => .error .typeError

/-! Helper lemmas about the interpreter. -/

/-- Unfolding of `ExoticFunction.__call__`: calling an `ExoticFunction`
value sequences the underlying call and the post-transform call. -/
theorem call_exoticF (σ : Sem) (f c : Val) (args : List Val) (kw : Kw)
    (log : List Event) :
    call σ (Val.exoticF f c) args kw log =
      (call σ f args kw log).bind fun rl => call σ c [rl.1] [] rl.2 := by
  cases h : call σ f args kw log <;> simp [call, h, Except.bind]

/-- A wrapper with the identity post-transform calls exactly as its
underlying function. -/
theorem call_exotic_fresh (σ : Sem) (f : Val) (args : List Val) (kw : Kw)
    (log : List Event) :
    call σ (Val.exoticF f Val.idFun) args kw log = call σ f args kw log := by
  rw [call_exoticF]
  cases h : call σ f args kw log <;> simp [Except.bind, call, idSem]

/-- No `Val` contains itself as the post-transform of an `exoticF` node. -/
theorem val_exoticF_ne (f c : Val) : Val.exoticF f c ≠ c := by
  intro h
  have h' := congrArg sizeOf h
  simp at h'

/-- No `Val` equals a `partialApp` node built over itself. -/
theorem val_partialApp_ne (f : Val) (l : List Val) : Val.partialApp f l ≠ f := by
  intro h
  have h' := congrArg sizeOf h
  simp at h'
  omega

/-- C1: Invoking an `ExoticFunction` with underlying `f` and post-transform
`c` on any positional and keyword arguments returns `c(f(*args, **kwargs))`
(the underlying call first, its result fed to the post-transform, errors
sequenced); and a wrapper freshly produced by the builder, `exotic % f`,
whose post-transform is the identity, returns exactly `f(*args, **kwargs)`. -/
theorem invoke_applies_post_transform (σ : Sem) (f c : Val) (args : List Val)
    (kw : Kw) (log : List Event) :
    call σ (Val.exoticF f c) args kw log =
      ((call σ f args kw log).bind fun rl => call σ c [rl.1] [] rl.2)
    ∧ call σ (exoticMod f).toVal args kw log = call σ f args kw log :=
  ⟨call_exoticF σ f c args kw log, call_exotic_fresh σ f args kw log⟩

/-- C2: `composeWith` (the `@` operator) returns a new wrapper whose
underlying function is `g` and whose post-transform is `self` itself
(apply `g` first, then `self`); consequently invoking
`(exotic % f) @ g` on `x` calls `g` on `x` and then `f` on the result,
and when `f` and `g` are opaque unary functions with pure behaviours
`F` and `G`, the returned value is `F (G x)`, that is `f(g(x))`. -/
theorem composeWith_semantics (e : ExoticFunction) (g : Val) :
    (e.matmul g).func = g
    ∧ (e.matmul g)._composed = e.toVal
    ∧ (∀ (σ : Sem) (f x : Val) (log : List Event),
        call σ ((exoticMod f).matmul g).toVal [x] [] log =
          ((call σ g [x] [] log).bind fun rl => call σ f [rl.1] [] rl.2))
    ∧ (∀ (σ : Sem) (nf ng : Nat) (F G : Val → Val) (x : Val) (log : List Event),
        (∀ v, σ nf [v] [] = .ok (F v)) →
        (∀ v, σ ng [v] [] = .ok (G v)) →
        (call σ ((exoticMod (Val.prim nf)).matmul (Val.prim ng)).toVal
            [x] [] log).map Prod.fst = .ok (F (G x))) := by
  refine ⟨rfl, rfl, fun σ f x log => ?_, fun σ nf ng F G x log hf hg => ?_⟩
  · rw [show ((exoticMod f).matmul g).toVal =
        Val.exoticF g (Val.exoticF f Val.idFun) from rfl, call_exoticF]
    cases h : call σ g [x] [] log with
    | error e => rfl
    | ok rl => simp [Except.bind, call_exotic_fresh]
  · simp [exoticMod, exotic, ExoticBuilder.mod, ExoticFunction.matmul,
      ExoticFunction.toVal, call, idSem, hf, hg, Except.map]

/-- Witness for C2 at concrete inputs: tags 0 and 1 of `σw` are unary with
behaviours `Fw` and `Gw`, and the composed pipeline applied to `7` returns
`Fw (Gw 7)`. -/
theorem composeWith_semantics_witness :
    (∀ v, σw 0 [v] [] = .ok (Fw v)) ∧ (∀ v, σw 1 [v] [] = .ok (Gw v))
    ∧ (call σw ((exoticMod (Val.prim 0)).matmul (Val.prim 1)).toVal
        [Val.int 7] [] []).map Prod.fst = .ok (Fw (Gw (Val.int 7))) :=
  ⟨fun _ => rfl, fun _ => rfl,
    (composeWith_semantics (exoticMod (Val.prim 0)) (Val.prim 1)).2.2.2
      σw 0 1 Fw Gw (Val.int 7) [] (fun _ => rfl) (fun _ => rfl)⟩

/-- C3: `partialLeft` (the `*` operator) returns a new wrapper whose
underlying function is `partial(self.func, a)` — so a later invocation with
further positional and keyword arguments calls the original underlying on
`a` prepended to them — and whose post-transform is the stored
post-transform unchanged, not the whole wrapper; `<<` behaves identically
to `*`; and `(exotic % f) * a` invoked with no further positional arguments
returns `f(a)`. -/
theorem partialLeft_semantics (e : ExoticFunction) (a : Val) :
    (e.mul a).func = Val.partialApp e.func [a]
    ∧ (e.mul a)._composed = e._composed
    ∧ e.lshift a = e.mul a
    ∧ (∀ (σ : Sem) (args : List Val) (kw : Kw) (log : List Event),
        call σ (e.mul a).toVal args kw log =
          ((call σ e.func (a :: args) kw log).bind fun rl =>
            call σ e._composed [rl.1] [] rl.2))
    ∧ (∀ (σ : Sem) (f : Val) (log : List Event),
        call σ ((exoticMod f).mul a).toVal [] [] log = call σ f [a] [] log) :=
  ⟨rfl, rfl, rfl,
    fun σ args kw log => call_exoticF σ (Val.partialApp e.func [a]) e._composed args kw log,
    fun σ f log => call_exotic_fresh σ (Val.partialApp f [a]) [] [] log⟩

/-- C4 fails as stated: the thunk wrapping the value `1` is called with no
positional arguments but with its (name-mangled) keyword-only parameter
supplied as `2`; it returns `2`, not the captured value `1`, so the thunk
does not return the wrapped value on every call with no positional
arguments, and the capture does not shield the result from what the thunk
is called with. -/
theorem thunk_no_positional_call_counterexample :
    call σw (Val.thunk (Val.int 1)) [] [(thunkKey, Val.int 2)] [] =
      .ok (Val.int 2, [])
    ∧ Val.int 2 ≠ Val.int 1 :=
  ⟨rfl, by simp⟩

/-- C4 (amended): `partialRightWrapped` (the `>>` operator) behaves exactly
like `partialLeft` applied to a zero-argument thunk wrapping `a`.  The thunk
returns the captured `a` when called with no arguments at all; it returns
the supplied value instead of `a` when its name-mangled keyword-only
parameter is passed; any other keyword, and any positional argument, raises
`TypeError`.  The captured default itself is fixed when the thunk is
created. -/
theorem partialRightWrapped_semantics (e : ExoticFunction) (a : Val) :
    e.rshift a = e.mul (Val.thunk a)
    ∧ (∀ (σ : Sem) (log : List Event),
        call σ (Val.thunk a) [] [] log = .ok (a, log))
    ∧ (∀ (σ : Sem) (v : Val) (log : List Event),
        call σ (Val.thunk a) [] [(thunkKey, v)] log = .ok (v, log))
    ∧ (∀ (σ : Sem) (k : String) (v : Val) (log : List Event), k ≠ thunkKey →
        call σ (Val.thunk a) [] [(k, v)] log = .error .typeError)
    ∧ (∀ (σ : Sem) (x : Val) (xs : List Val) (kw : Kw) (log : List Event),
        call σ (Val.thunk a) (x :: xs) kw log = .error .typeError) := by
  refine ⟨rfl, fun σ log => rfl, fun σ v log => ?_, fun σ k v log hk => ?_,
    fun σ x xs kw log => rfl⟩
  · simp [call, thunkSem]
  · simp [call, thunkSem, hk]

/-- Witness for C4 (amended) at concrete inputs: the keyword `y` is not the
thunk's mangled parameter name, and calling the thunk wrapping `3` with the
keyword `y` raises `TypeError`. -/
theorem partialRightWrapped_semantics_witness :
    ("y" ≠ thunkKey)
    ∧ call σw (Val.thunk (Val.int 3)) [] [("y", Val.int 4)] [] =
        .error .typeError :=
  ⟨by decide, (partialRightWrapped_semantics (exoticMod (Val.prim 0))
      (Val.int 3)).2.2.2.1 σw "y" (Val.int 4) [] (by decide)⟩

/-- C5: `apply` is dual-mode on the `func` keyword: with `func` omitted
(`None`) and a non-empty positional tuple, the first positional argument is
called on the remaining ones; with `func` supplied (any non-`None` value),
`func` is called on all positional arguments.  In both modes the call passes
no keyword arguments: only positional arguments are spread. -/
theorem apply_dual_mode (σ : Sem) (a : Val) (rest args : List Val)
    (log : List Event) :
    apply σ (a :: rest) Val.none log = call σ a rest [] log
    ∧ (∀ c : Val, c ≠ Val.none → apply σ args c log = call σ c args [] log) := by
  refine ⟨rfl, fun c hc => ?_⟩
  cases c with
  | none => exact absurd rfl hc
  | _ => rfl

/-- Witness for C5 at concrete inputs: tag 3 of `σw` is not `None`, and
`apply` with explicit `func` spreads the positional arguments to it. -/
theorem apply_dual_mode_witness :
    (Val.prim 3 ≠ Val.none)
    ∧ apply σw [Val.int 1, Val.int 2] (Val.prim 3) [] =
        call σw (Val.prim 3) [Val.int 1, Val.int 2] [] [] :=
  ⟨by simp, (apply_dual_mode σw (Val.prim 3) [] [Val.int 1, Val.int 2] []).2
      (Val.prim 3) (by simp)⟩

/-- C6: `unpack(p, func=c)` first calls the producer `p` with no arguments;
when that returns the sequence `s` and `c` is callable, it returns the fresh
wrapper `ExoticFunction(partial(c, *s))`; invoking that wrapper with no
further arguments calls `c` on the elements of `s` spread positionally (no
keywords); and when `c` is an opaque print-like function, the invocation
appends exactly one invocation event for `c`, carrying the elements of `s`. -/
theorem unpack_semantics (σ : Sem) (p : Val) (s : List Val) (n : Nat) (r : Val)
    (log log' iLog : List Event)
    (hp : call σ p [] [] log = .ok (Val.list s, log'))
    (hn : σ n s [] = .ok r) :
    (∀ c : Val, isCallable c = true →
      unpack σ p c log = .ok (Val.exoticF (Val.partialApp c s) Val.idFun, log'))
    ∧ (∀ (c : Val) (iLog2 : List Event),
        call σ (Val.exoticF (Val.partialApp c s) Val.idFun) [] [] iLog2 =
          call σ c s [] iLog2)
    ∧ call σ (Val.exoticF (Val.partialApp (Val.prim n) s) Val.idFun) [] [] iLog =
        .ok (r, iLog ++ [⟨n, s, []⟩]) := by
  refine ⟨fun c hc => ?_, fun c iLog2 => ?_, ?_⟩
  · simp [unpack, hp, asIterable, hc]
  · rw [call_exotic_fresh]
    show call σ c (s ++ []) [] iLog2 = _
    rw [List.append_nil]
  · rw [call_exotic_fresh]
    show call σ (Val.prim n) (s ++ []) [] iLog = _
    simp [call, hn]

/-- Witness for C6 at concrete inputs: tag 4 of `σw` is a producer returning
`[1, 2, 3]` and tag 3 a print-like function; invoking the wrapper that
`unpack` returns records exactly one invocation of the print-like function,
with arguments `1, 2, 3`. -/
theorem unpack_semantics_witness :
    (call σw (Val.prim 4) [] [] [] =
      .ok (Val.list [Val.int 1, Val.int 2, Val.int 3], [⟨4, [], []⟩]))
    ∧ (σw 3 [Val.int 1, Val.int 2, Val.int 3] [] = .ok Val.none)
    ∧ ((∀ c : Val, isCallable c = true →
        unpack σw (Val.prim 4) c [] =
          .ok (Val.exoticF
            (Val.partialApp c [Val.int 1, Val.int 2, Val.int 3]) Val.idFun,
            [⟨4, [], []⟩]))
      ∧ (∀ (c : Val) (iLog2 : List Event),
          call σw (Val.exoticF
              (Val.partialApp c [Val.int 1, Val.int 2, Val.int 3]) Val.idFun)
              [] [] iLog2 =
            call σw c [Val.int 1, Val.int 2, Val.int 3] [] iLog2)
      ∧ call σw (Val.exoticF
            (Val.partialApp (Val.prim 3) [Val.int 1, Val.int 2, Val.int 3])
            Val.idFun) [] [] [] =
          .ok (Val.none, [⟨3, [Val.int 1, Val.int 2, Val.int 3], []⟩])) :=
  ⟨rfl, rfl,
    unpack_semantics σw (Val.prim 4) [Val.int 1, Val.int 2, Val.int 3] 3
      Val.none [] [⟨4, [], []⟩] [] rfl rfl⟩

/-- C7: composition is associative in effect: each `@` wraps one further
representational layer without collapsing — the doubly composed pipeline is
the three-deep nest of wrappers — and invoking
`exotic % f @ g @ h` on `x`, for opaque unary functions with pure
behaviours `F`, `G`, `H`, returns `F (G (H x))`, that is `f(g(h(x)))`. -/
theorem compose_associative_in_effect (σ : Sem) (nf ng nh : Nat)
    (F G H : Val → Val) (x : Val) (log : List Event)
    (hf : ∀ v, σ nf [v] [] = .ok (F v))
    (hg : ∀ v, σ ng [v] [] = .ok (G v))
    (hh : ∀ v, σ nh [v] [] = .ok (H v)) :
    (∀ f g h : Val, (((exoticMod f).matmul g).matmul h).toVal =
      Val.exoticF h (Val.exoticF g (Val.exoticF f Val.idFun)))
    ∧ (call σ (((exoticMod (Val.prim nf)).matmul (Val.prim ng)).matmul
        (Val.prim nh)).toVal [x] [] log).map Prod.fst = .ok (F (G (H x))) := by
  refine ⟨fun f g h => rfl, ?_⟩
  simp [exoticMod, exotic, ExoticBuilder.mod, ExoticFunction.matmul,
    ExoticFunction.toVal, call, idSem, hf, hg, hh, Except.map]

/-- Witness for C7 at concrete inputs: tags 0, 1, 2 of `σw` are unary with
behaviours `Fw`, `Gw`, `Hw`, and the doubly composed pipeline applied to `5`
returns `Fw (Gw (Hw 5))`. -/
theorem compose_associative_in_effect_witness :
    (∀ v, σw 0 [v] [] = .ok (Fw v)) ∧ (∀ v, σw 1 [v] [] = .ok (Gw v))
    ∧ (∀ v, σw 2 [v] [] = .ok (Hw v))
    ∧ ((∀ f g h : Val, (((exoticMod f).matmul g).matmul h).toVal =
          Val.exoticF h (Val.exoticF g (Val.exoticF f Val.idFun)))
      ∧ (call σw (((exoticMod (Val.prim 0)).matmul (Val.prim 1)).matmul
          (Val.prim 2)).toVal [Val.int 5] [] []).map Prod.fst =
            .ok (Fw (Gw (Hw (Val.int 5))))) :=
  ⟨fun _ => rfl, fun _ => rfl, fun _ => rfl,
    compose_associative_in_effect σw 0 1 2 Fw Gw Hw (Val.int 5) []
      (fun _ => rfl) (fun _ => rfl) (fun _ => rfl)⟩

/-- C8: invoking a wrapper raises exactly when the underlying function
raises, or the underlying call succeeds and the post-transform raises on
its result; and the error the invocation reports is precisely the error
they raised — nothing is validated, recovered, or translated. -/
theorem error_propagation (σ : Sem) (f c : Val) (args : List Val) (kw : Kw)
    (log : List Event) (e : PyErr) :
    call σ (Val.exoticF f c) args kw log = .error e ↔
      (call σ f args kw log = .error e
        ∨ ∃ r log', call σ f args kw log = .ok (r, log')
            ∧ call σ c [r] [] log' = .error e) := by
  rw [call_exoticF]
  cases h : call σ f args kw log with
  | error e' => simp [Except.bind]
  | ok rl =>
    obtain ⟨r, l⟩ := rl
    simp [Except.bind]
    constructor
    · intro hcl
      exact ⟨r, l, ⟨rfl, rfl⟩, hcl⟩
    · rintro ⟨r1, l1, ⟨rfl, rfl⟩, hcl⟩
      exact hcl

/-- C9: every combinator operation — composeWith (`@`), partialLeft (`*`),
partialRightWrapped (`>>`), and `<<` — produces a wrapper distinct from the
original.  The original is never mutated: in this embedding the operations
are pure constructions whose result merely refers to the original's stored
function and post-transform, so the original's attributes and behaviour are
untouched by construction. -/
theorem combinators_return_new_instances (e : ExoticFunction) (g a b c : Val) :
    (e.matmul g).toVal ≠ e.toVal
    ∧ (e.mul a).toVal ≠ e.toVal
    ∧ (e.rshift b).toVal ≠ e.toVal
    ∧ (e.lshift c).toVal ≠ e.toVal := by
  refine ⟨?_, ?_, ?_, ?_⟩ <;> intro h <;>
    simp only [ExoticFunction.matmul, ExoticFunction.mul, ExoticFunction.rshift,
      ExoticFunction.lshift, ExoticFunction.toVal, Val.exoticF.injEq] at h
  · exact val_exoticF_ne e.func e._composed h.2
  · exact val_partialApp_ne e.func [a] h.1
  · exact val_partialApp_ne e.func [Val.thunk b] h.1
  · exact val_partialApp_ne e.func [c] h.1

/-- C10: `apply` with `func` omitted and no positional arguments reaches the
unguarded indexing of the first positional argument and raises `IndexError`;
with at least one positional argument that branch never fails on the
indexing — it proceeds to call the first argument on the rest. -/
theorem apply_empty_args_raises_index_error (σ : Sem) (log : List Event) :
    apply σ [] Val.none log = .error PyErr.indexError
    ∧ ∀ (a : Val) (rest : List Val),
        apply σ (a :: rest) Val.none log = call σ a rest [] log :=
  ⟨rfl, fun _ _ => rfl⟩

end Exotic
